import Mathlib

/-!
Verification development for the machine backend core of the nixops
repository (file nixops/backends/__init__.py).  The definitions below are a
shallow embedding of the Python source: the secret-provisioning protocol
(`MachineState.send_keys`), the SSH-readiness transition
(`MachineState.wait_for_ssh`) and the systemd-unit classification inside the
health check (`MachineState._check`).  Remote commands and file transfers are
modelled as an explicit event trace; exceptions are modelled by an optional
error value together with the events emitted before the exception was raised.
-/

namespace Nixops

/-- Machine lifecycle states used by the embedded fragment
(`self.STARTING`, `self.UP`, `self.RESCUE`, `self.UNREACHABLE`). -/
inductive MachineSt
  | starting
  | up
  | rescue
  | unreachable
deriving DecidableEq

/-- Options dictionary of one secret spec, as produced by
`MachineDefinition._extract_key_options`: every field is optional, mirroring
a Python dict in which a key may be absent.  (`keyCmd` is recognised by
`send_keys` even though `_extract_key_options` never emits it.) -/
structure KeyOptions where
  text : Option String
  keyFile : Option String
  keyCmd : Option String
  destDir : Option String
  user : Option String
  group : Option String
  permissions : Option String
deriving DecidableEq

/-- The fields of `MachineState` that the embedded operations read or write.
`sshPingedThisTime` models the transient `self._ssh_pinged_this_time`. -/
structure MachineRecord where
  name : String
  state : MachineSt
  sshPinged : Bool
  sshPingedThisTime : Bool
  storeKeysOnMachine : Bool
  keys : List (String × KeyOptions)
deriving DecidableEq

/-- Model of `MachineState.wait_for_ssh(check)`: the fast path returns the
record unchanged when `ssh_pinged and (not check or self._ssh_pinged_this_time)`;
otherwise the blocking poll (`nixops.util.wait_for_tcp_port`, which in this
embedding always succeeds) is followed by setting state to UP unless the
state is RESCUE, and setting both pinged flags. -/
def wait_for_ssh (m : MachineRecord) (check : Bool) : MachineRecord :=
  if m.sshPinged && (!check || m.sshPingedThisTime) then m
  else
    { m with
      state := if m.state = MachineSt.rescue then m.state else MachineSt.up,
      sshPinged := true,
      sshPingedThisTime := true }

/-- Remote commands issued by `send_keys` via `self.run_command`.  Each
constructor stands for the exact shell string built in the source:
ensureDestDir d  = test -d d or (mkdir -m 0750 -p d and chown root:keys d);
removeFiles a b  = rm -f a b;
chownChmod t u g p = (getent passwd u and getent group g and chown u:g t); chmod p t;
moveFile s d     = mv s d;
ensureRunKeys    = mkdir -m 0750 -p /run/keys and chown root:keys /run/keys
                   and touch /run/keys/done. -/
inductive RemoteCmd
  | ensureDestDir (dir : String)
  | removeFiles (outfile tmpOutfile : String)
  | chownChmod (target user group perms : String)
  | moveFile (src dst : String)
  | ensureRunKeys (dir mode group marker : String)
deriving DecidableEq

/-- Observable steps of `send_keys`.  `remote` is `self.run_command`,
`upload` is `self.upload_file(tmp, tmp_outfile)` carrying the scratch-file
content at upload time, the `local*` constructors are the local-side
operations (writing the scratch file, `subprocess.Popen` of the key command
with no wait, `cp` of a key file, `os.remove` of the scratch file). -/
inductive Event
  | remote (c : RemoteCmd)
  | upload (source target content : String)
  | localWrite (path content : String)
  | localSpawn (path cmd : String)
  | localCopy (src dst : String)
  | localRemoveFile (path : String)
deriving DecidableEq

/-- Environment of one `send_keys` run: local temp directory, the full
standard output a shell command would produce, how many characters of that
output the asynchronously spawned command (Popen, never waited on) has
written by the time the scratch file is uploaded, local file contents, and
whether `getent passwd` / `getent group` succeed on the remote machine.
`scpMode` is the file mode an scp-created file receives; `touchMode` the
mode of a file created by touch. -/
structure Env where
  tempdir : String
  cmdOutput : String → String
  cmdProgress : String → Nat
  fileContents : String → String
  userExists : String → Bool
  groupExists : String → Bool
  scpMode : String
  touchMode : String

/-- Python `str.rstrip("/")`: remove all trailing slash characters. -/
def rstripSlashes (s : String) : String :=
  String.mk ((s.data.reverse.dropWhile (fun c => c = '/')).reverse)

/-- Materialization of the secret content into the local scratch file,
mirroring the source branch order: `"text" in opts`, then `'keyCmd' in opts`
(spawned with `subprocess.Popen(..., shell=True)` and never waited on, so
the scratch file holds only the output written so far at upload time), then
`'keyFile' in opts` (`cp`).  Returns the local event together with the
scratch-file content as it will be at upload time, or `none` when no source
is set (the source then raises). -/
def materialize (env : Env) (tmpPath : String) (opts : KeyOptions) :
    Option (Event × String) :=
  match opts.text with
  | some t => some (Event.localWrite tmpPath t, t)
  | none =>
    match opts.keyCmd with
    | some c =>
      some (Event.localSpawn tmpPath c, (env.cmdOutput c).take (env.cmdProgress c))
    | none =>
      match opts.keyFile with
      | some f => some (Event.localCopy f tmpPath, env.fileContents f)
      | none => none

/-- Final destination path `destDir/name` (after rstrip of slashes),
the `outfile` of the source. -/
def keyOutfile (d name : String) : String :=
  rstripSlashes d ++ "/" ++ name

/-- Temporary upload path `destDir/.name.tmp`, the `tmp_outfile` of the
source. -/
def keyTmpfile (d name : String) : String :=
  rstripSlashes d ++ "/." ++ name ++ ".tmp"

/-- One iteration of the `send_keys` loop for key `name` with options
`opts`: returns the events emitted, and `some message` when the iteration
raises (missing destDir, no source set, or a Python `KeyError` from
`opts["user"]`, `opts["group"]`, `opts["permissions"]`).  Events emitted
before the exception are kept.  The message texts paraphrase the Python
exception messages (which use quote characters) but keep their identity and
order; the KeyError accesses happen left to right while formatting the
chown/chmod command, before that command is issued but after the upload. -/
def sendKeysKey (env : Env) (tmpPath name : String) (opts : KeyOptions) :
    List Event × Option String :=
  match opts.destDir with
  | none => ([], some ("Key has no destDir specified: " ++ name))
  | some d0 =>
    let destDir := rstripSlashes d0
    let ev1 := Event.remote (RemoteCmd.ensureDestDir destDir)
    match materialize env tmpPath opts with
    | none => ([ev1], some ("Neither text or keyFile options were set for key " ++ name))
    | some (ev2, content) =>
      let outfile := destDir ++ "/" ++ name
      let tmpOutfile := destDir ++ "/." ++ name ++ ".tmp"
      let ev3 := Event.remote (RemoteCmd.removeFiles outfile tmpOutfile)
      let ev4 := Event.upload tmpPath tmpOutfile content
      match opts.user with
      | none => ([ev1, ev2, ev3, ev4], some "KeyError: user")
      | some u =>
        match opts.group with
        | none => ([ev1, ev2, ev3, ev4], some "KeyError: group")
        | some g =>
          match opts.permissions with
          | none => ([ev1, ev2, ev3, ev4], some "KeyError: permissions")
          | some p =>
            ([ev1, ev2, ev3, ev4,
              Event.remote (RemoteCmd.chownChmod tmpOutfile u g p),
              Event.remote (RemoteCmd.moveFile tmpOutfile outfile),
              Event.localRemoveFile tmpPath], none)

/-- Events of one key iteration (first component of `sendKeysKey`). -/
def keyEvents (env : Env) (tmpPath name : String) (opts : KeyOptions) :
    List Event :=
  (sendKeysKey env tmpPath name opts).1

/-- The `for k, opts in self.get_keys().items()` loop: process keys in
order, stopping at the first exception and keeping the events emitted so
far. -/
def processKeys (env : Env) (tmpPath : String) :
    List (String × KeyOptions) → List Event × Option String
  | [] => ([], none)
  | (k, opts) :: rest =>
    match sendKeysKey env tmpPath k opts with
    | (evs, some e) => (evs, some e)
    | (evs, none) =>
      match processKeys env tmpPath rest with
      | (evs2, err2) => (evs ++ evs2, err2)

/-- Model of `MachineState.send_keys`: returns the (unchanged) machine
record, the trace of events, and `some message` if an exception escaped.
Guards: no-op when the state is RESCUE or `store_keys_on_machine` is true;
otherwise all keys are processed and finally
`mkdir -m 0750 -p /run/keys and chown root:keys /run/keys and touch
/run/keys/done` is run. -/
def send_keys (env : Env) (m : MachineRecord) :
    MachineRecord × List Event × Option String :=
  if m.state = MachineSt.rescue then (m, [], none)
  else if m.storeKeysOnMachine then (m, [], none)
  else
    match processKeys env (env.tempdir ++ "/key-" ++ m.name) m.keys with
    | (evs, some e) => (m, evs, some e)
    | (evs, none) =>
      (m, evs ++ [Event.remote (RemoteCmd.ensureRunKeys "/run/keys" "0750" "keys" "/run/keys/done")],
       none)

/-! Filesystem interpretation of the remote events.  A remote filesystem is
a map from paths to file data (content, owner, mode); only the events that
touch regular files change it. -/

/-- Content, owner (user, group) and mode of one remote regular file. -/
structure FileData where
  content : String
  owner : String × String
  mode : String
deriving DecidableEq

/-- Effect of one event on the remote filesystem.  `removeFiles` deletes
both paths; `upload` (scp as root) creates the target owned root:root with
the scp default mode; `chownChmod` sets the owner to user:group only when
both `getent` lookups succeed, and always sets the mode; `moveFile` renames;
`ensureRunKeys` touches the marker (creating an empty file if absent);
directory creation and the local-side events do not change remote regular
files. -/
def applyEvent (env : Env) (fs : String → Option FileData) :
    Event → String → Option FileData
  | Event.remote (RemoteCmd.ensureDestDir _), q => fs q
  | Event.remote (RemoteCmd.removeFiles a b), q =>
    if q = a ∨ q = b then none else fs q
  | Event.remote (RemoteCmd.chownChmod t u g perms), q =>
    if q = t then
      (fs t).map (fun fd =>
        { content := fd.content,
          owner := if env.userExists u && env.groupExists g then (u, g) else fd.owner,
          mode := perms })
    else fs q
  | Event.remote (RemoteCmd.moveFile s d), q =>
    if q = d then fs s else if q = s then none else fs q
  | Event.remote (RemoteCmd.ensureRunKeys _ _ _ marker), q =>
    if q = marker then
      some ((fs marker).getD { content := "", owner := ("root", "root"), mode := env.touchMode })
    else fs q
  | Event.upload _ t content, q =>
    if q = t then some { content := content, owner := ("root", "root"), mode := env.scpMode }
    else fs q
  | Event.localWrite _ _, q => fs q
  | Event.localSpawn _ _, q => fs q
  | Event.localCopy _ _, q => fs q
  | Event.localRemoveFile _, q => fs q

/-- Effect of a whole event trace on the remote filesystem. -/
def applyEvents (env : Env) (fs : String → Option FileData) (evs : List Event) :
    String → Option FileData :=
  evs.foldl (applyEvent env) fs

/-- An event that makes the file at path `p` come into existence with some
content: an upload targeting `p` or a rename onto `p`.  (Removal, metadata
changes and directory creation do not create `p`; the `touch` of the
readiness marker never occurs inside a key iteration.) -/
def createsPath (e : Event) (p : String) : Prop :=
  match e with
  | Event.upload _ t _ => t = p
  | Event.remote (RemoteCmd.moveFile _ d) => d = p
  | _ => False

/-! Health-check unit classification (`MachineState._check`, lines 160-197):
the output of `systemctl --all --full --no-legend` is split into lines and
each line is matched against three regular expressions; a fourth block
handles `tmp.mount` with a secondary probe of /etc/fstab whose own failure
is swallowed by a bare `except: continue`. -/

/-- Result of running the fstab probe
`cat /etc/fstab | cut -d ... | grep ...` on the remote machine:
the grep finds a /tmp entry (command succeeds), finds no entry (grep exits
nonzero, so `run_command` raises `SSHCommandFailed`), or the transport
itself fails (`SSHConnectionFailed`). -/
inductive ProbeOutcome
  | confirmed
  | noEntry
  | transportFailure
deriving DecidableEq

/-- Whether the probe command raises in Python: every outcome except a
confirmed /tmp entry raises, and the bare `except` swallows it. -/
def probeRaises : ProbeOutcome → Bool
  | ProbeOutcome.confirmed => false
  | ProbeOutcome.noEntry => true
  | ProbeOutcome.transportFailure => true

/-- Boolean test that `needle` occurs as a contiguous substring of `hay`
(used to model the `.* WORD .*` part of the regexes). -/
def listInfix (needle : List Char) : List Char → Bool
  | [] => needle.isEmpty
  | c :: t => needle.isPrefixOf (c :: t) || listInfix needle t

/-- Model of the Python regex match
`re.match("^([^ ]+) .* WORD .*$", l)` for a line `l` not containing a
newline: the group is the maximal nonempty space-free prefix, the character
after it must be a space, and the rest of the line must contain
" WORD " (with single surrounding spaces) as a contiguous substring.
Returns the first group on success. -/
def reWordMatch (word : List Char) (l : List Char) : Option (List Char) :=
  let tok := l.takeWhile (fun c => !(c == ' '))
  let rest := l.dropWhile (fun c => !(c == ' '))
  if !tok.isEmpty && !rest.isEmpty && (listInfix (' ' :: word ++ [' ']) (rest.drop 1)) then
    some tok
  else none

/-- Model of `re.match("^([^\\.]+\\.mount) .* inactive .*$", l)`: the group
is the maximal nonempty dot-free prefix followed by the literal ".mount",
the character after the group must be a space, and the remainder must
contain " inactive " as a contiguous substring.  Returns the first group
(including the ".mount" suffix) on success. -/
def reMountInactive (l : List Char) : Option (List Char) :=
  let pre := l.takeWhile (fun c => !(c == '.'))
  let rest := l.dropWhile (fun c => !(c == '.'))
  if !pre.isEmpty && (".mount ".data.isPrefixOf rest)
      && (listInfix " inactive ".data (rest.drop 7)) then
    some (pre ++ ".mount".data)
  else none

/-- The classification produced by the unit-listing loop:
`res.failed_units` and `res.in_progress_units`. -/
structure UnitClassification where
  failedUnits : List (List Char)
  inProgressUnits : List (List Char)
deriving DecidableEq

/-- Append a unit to `failed_units` (Python `res.failed_units.append`). -/
def addFailed (acc : UnitClassification) (u : List Char) : UnitClassification :=
  { acc with failedUnits := acc.failedUnits ++ [u] }

/-- Append a unit to `in_progress_units`. -/
def addInProgress (acc : UnitClassification) (u : List Char) : UnitClassification :=
  { acc with inProgressUnits := acc.inProgressUnits ++ [u] }

/-- First block of the loop body: the `failed` pattern. -/
def stepFailed (l : List Char) (acc : UnitClassification) : UnitClassification :=
  match reWordMatch "failed".data l with
  | some u => addFailed acc u
  | none => acc

/-- Second block: the `activating` pattern. -/
def stepActivating (l : List Char) (acc : UnitClassification) : UnitClassification :=
  match reWordMatch "activating".data l with
  | some u => addInProgress acc u
  | none => acc

/-- Third block: an inactive mount unit is counted failed unless its name
starts with "sys-" or "dev-" or equals "tmp.mount". -/
def stepMount (l : List Char) (acc : UnitClassification) : UnitClassification :=
  match reMountInactive l with
  | some u =>
    if "sys-".data.isPrefixOf u || "dev-".data.isPrefixOf u || u == "tmp.mount".data then acc
    else addFailed acc u
  | none => acc

/-- Fourth block: for an inactive `tmp.mount` the fstab probe decides; a
probe that raises is swallowed by `except: continue` and the unit is not
counted. -/
def stepTmp (probe : ProbeOutcome) (l : List Char) (acc : UnitClassification) :
    UnitClassification :=
  match reMountInactive l with
  | some u =>
    if u == "tmp.mount".data then
      if probeRaises probe then acc else addFailed acc u
    else acc
  | none => acc

/-- One iteration of the classification loop, in source order. -/
def classifyLine (probe : ProbeOutcome) (acc : UnitClassification) (l : List Char) :
    UnitClassification :=
  stepTmp probe l (stepMount l (stepActivating l (stepFailed l acc)))

/-- The whole classification loop over the split output lines. -/
def classifyUnits (probe : ProbeOutcome) (lines : List (List Char)) :
    UnitClassification :=
  lines.foldl (classifyLine probe) { failedUnits := [], inProgressUnits := [] }

/-- Units the first (failed) block of the loop body contributes for one
line. -/
def failedFromLine1 (l : List Char) : List (List Char) :=
  match reWordMatch "failed".data l with
  | some u => [u]
  | none => []

/-- Units the inactive-mount block contributes for one line. -/
def failedFromMount (l : List Char) : List (List Char) :=
  match reMountInactive l with
  | some u =>
    if "sys-".data.isPrefixOf u || "dev-".data.isPrefixOf u || u == "tmp.mount".data then []
    else [u]
  | none => []

/-- Units the tmp.mount block contributes for one line, given the probe
outcome. -/
def failedFromTmp (probe : ProbeOutcome) (l : List Char) : List (List Char) :=
  match reMountInactive l with
  | some u =>
    if u == "tmp.mount".data then
      if probeRaises probe then [] else [u]
    else []
  | none => []

/-- Units the activating block contributes for one line. -/
def inProgFromLine (l : List Char) : List (List Char) :=
  match reWordMatch "activating".data l with
  | some u => [u]
  | none => []

/-- All failed units contributed by a list of lines, in loop order. -/
def failedOfLines (probe : ProbeOutcome) : List (List Char) → List (List Char)
  | [] => []
  | l :: t =>
    (failedFromLine1 l ++ failedFromMount l ++ failedFromTmp probe l) ++ failedOfLines probe t

/-- All in-progress units contributed by a list of lines, in loop order. -/
def inProgOfLines : List (List Char) → List (List Char)
  | [] => []
  | l :: t => inProgFromLine l ++ inProgOfLines t

/-! Concrete instances used by witnesses and counterexamples. -/

/-- A deterministic concrete environment.  `cmdProgress` is 0: the spawned
key command has not yet written anything when the scratch file is uploaded
(Popen returns immediately and is never waited on). -/
def env0 : Env where
  tempdir := "/tmp-dir"
  cmdOutput := fun _ => "secret\n"
  cmdProgress := fun _ => 0
  fileContents := fun _ => "filedata"
  userExists := fun _ => true
  groupExists := fun _ => true
  scpMode := "0644"
  touchMode := "0644"

/-- A fully specified inline-text secret spec. -/
def opts3 : KeyOptions :=
  { text := some "newsecret", keyFile := none, keyCmd := none,
    destDir := some "/run/keys", user := some "root", group := some "root",
    permissions := some "0600" }

/-- A spec with no destDir. -/
def optsNoDest : KeyOptions :=
  { text := some "s", keyFile := none, keyCmd := none, destDir := none,
    user := some "root", group := some "root", permissions := some "0600" }

/-- A spec with a destDir but none of the three content sources. -/
def optsNoSource : KeyOptions :=
  { text := none, keyFile := none, keyCmd := none, destDir := some "/run/keys",
    user := some "root", group := some "root", permissions := some "0600" }

/-- A valid spec whose user field is absent. -/
def optsNoUser : KeyOptions :=
  { text := some "s", keyFile := none, keyCmd := none, destDir := some "/dir",
    user := none, group := some "root", permissions := some "0600" }

/-- A spec whose source is a shell command. -/
def optsCmd : KeyOptions :=
  { text := none, keyFile := none, keyCmd := some "echo secret", destDir := some "/d",
    user := some "root", group := some "root", permissions := some "0600" }

/-- Initial remote filesystem holding an old complete secret at the
destination path of `opts3`. -/
def fs0 : String → Option FileData := fun q =>
  if q = "/run/keys/k" then some { content := "old", owner := ("root", "root"), mode := "0600" }
  else none

/-- Concrete environment in which the declared user does not resolve via
getent on the remote machine. -/
def envNoRes : Env :=
  { env0 with userExists := fun _ => false }

/-- A machine in RESCUE state. -/
def mRescue : MachineRecord :=
  { name := "m", state := MachineSt.rescue, sshPinged := false,
    sshPingedThisTime := false, storeKeysOnMachine := false, keys := [("k", opts3)] }

/-- A machine whose connectivity was confirmed in an earlier run
(`sshPinged` persisted true) but whose current state is UNREACHABLE. -/
def mFast : MachineRecord :=
  { name := "m", state := MachineSt.unreachable, sshPinged := true,
    sshPingedThisTime := false, storeKeysOnMachine := false, keys := [] }

/-- A machine that has never been pinged, in STARTING state. -/
def mProbe : MachineRecord :=
  { name := "m", state := MachineSt.starting, sshPinged := false,
    sshPingedThisTime := false, storeKeysOnMachine := false, keys := [] }

/-- A machine past the send_keys guards whose single secret spec has no
destDir. -/
def mBad : MachineRecord :=
  { name := "m", state := MachineSt.up, sshPinged := true,
    sshPingedThisTime := true, storeKeysOnMachine := false, keys := [("k", optsNoDest)] }

/-- A machine past the send_keys guards with an empty keys mapping. -/
def mEmpty : MachineRecord :=
  { name := "m", state := MachineSt.up, sshPinged := true,
    sshPingedThisTime := true, storeKeysOnMachine := false, keys := [] }

/-- A concrete systemctl listing exercising all four classification rules. -/
def lines0 : List (List Char) :=
  ["foo.service loaded failed failed Foo Daemon".data,
   "bar.service loaded activating start Bar Daemon".data,
   "bar.mount loaded inactive dead Bar Mount".data,
   "sys-kernel-config.mount loaded inactive dead Kernel Configuration File System".data]

/-- A concrete inactive tmp.mount listing line. -/
def lTmp : List Char :=
  "tmp.mount loaded inactive dead /tmp".data

/-! Helper lemmas. -/

/-- The hidden temporary path `destDir/.name.tmp` is never the final path
`destDir/name` (their lengths differ). -/
theorem append_tmp_ne (dd n : String) : dd ++ "/." ++ n ++ ".tmp" ≠ dd ++ "/" ++ n := by
  intro h
  have h2 := congrArg String.length h
  simp only [String.length_append] at h2
  have l1 : ("/." : String).length = 2 := rfl
  have l2 : (".tmp" : String).length = 4 := rfl
  have l3 : ("/" : String).length = 1 := rfl
  rw [l1, l2, l3] at h2
  omega

/-- The temporary upload path differs from the final destination path. -/
theorem keyTmpfile_ne_keyOutfile (d n : String) : keyTmpfile d n ≠ keyOutfile d n :=
  append_tmp_ne (rstripSlashes d) n

/-- The event produced by materialization is local: it creates no remote
path and leaves the remote filesystem unchanged. -/
theorem materialize_eventLocal (env : Env) (tmpPath : String) (opts : KeyOptions)
    (e : Event) (c : String) (h : materialize env tmpPath opts = some (e, c)) :
    (∀ p, ¬ createsPath e p) ∧ (∀ (env2 : Env) (fs : String → Option FileData), applyEvent env2 fs e = fs) := by
  unfold materialize at h
  cases hT : opts.text with
  | some t =>
    rw [hT] at h
    simp only [Option.some.injEq, Prod.mk.injEq] at h
    rw [← h.1]
    exact ⟨fun p hp => hp, fun env2 fs => rfl⟩
  | none =>
    rw [hT] at h
    cases hC : opts.keyCmd with
    | some cmd =>
      rw [hC] at h
      simp only [Option.some.injEq, Prod.mk.injEq] at h
      rw [← h.1]
      exact ⟨fun p hp => hp, fun env2 fs => rfl⟩
    | none =>
      rw [hC] at h
      cases hF : opts.keyFile with
      | some f =>
        rw [hF] at h
        simp only [Option.some.injEq, Prod.mk.injEq] at h
        rw [← h.1]
        exact ⟨fun p hp => hp, fun env2 fs => rfl⟩
      | none => rw [hF] at h; cases h

/-! Claim C9. -/

/-- C9: whenever the machine state is RESCUE or storeKeysOnMachine is true,
send_keys returns immediately as a no-op: it issues no remote commands,
uploads nothing, and leaves every field of the machine record unchanged. -/
theorem send_keys_noop_guards (env : Env) (m : MachineRecord)
    (h : m.state = MachineSt.rescue ∨ m.storeKeysOnMachine = true) :
    send_keys env m = (m, [], none) := by
  rcases h with h | h
  · simp [send_keys, h]
  · by_cases h2 : m.state = MachineSt.rescue
    · simp [send_keys, h2]
    · simp [send_keys, h2, h]

/-- Witness for C9 at a concrete RESCUE machine. -/
theorem send_keys_noop_guards_witness :
    send_keys env0 mRescue = (mRescue, [], none) :=
  send_keys_noop_guards env0 mRescue (Or.inl rfl)

/-! Claim C4. -/

/-- C4 counterexample: a machine whose connectivity was confirmed in an
earlier run (sshPinged persisted true) but whose state is UNREACHABLE takes
the fast path of wait_for_ssh (strict = false): the call returns with
sshPinged true but the state is neither UP nor a preserved RESCUE, refuting
the claim that after a successful return the state is Up unless it was
Rescue. -/
theorem wait_for_ssh_state_cex :
    (wait_for_ssh mFast false).sshPinged = true ∧
    mFast.state ≠ MachineSt.rescue ∧
    (wait_for_ssh mFast false).state ≠ MachineSt.up := by decide

/-- C4 amended: after wait_for_ssh returns, sshPinged is always true; the
fast path (sshPinged already true, and strict false or already confirmed
this run) returns the record unchanged, so the state can stay non-Up; on
the probing path the state becomes Up unless it was Rescue, which is
preserved, and the run-local flag is set. -/
theorem wait_for_ssh_state_amended (m : MachineRecord) (check : Bool) :
    (wait_for_ssh m check).sshPinged = true ∧
    ((m.sshPinged && (!check || m.sshPingedThisTime)) = true → wait_for_ssh m check = m) ∧
    ((m.sshPinged && (!check || m.sshPingedThisTime)) = false →
      (wait_for_ssh m check).state = (if m.state = MachineSt.rescue then m.state else MachineSt.up) ∧
      (wait_for_ssh m check).sshPingedThisTime = true) := by
  refine ⟨?_, ?_, ?_⟩
  · by_cases hc : (m.sshPinged && (!check || m.sshPingedThisTime)) = true
    · rw [wait_for_ssh, if_pos hc]
      exact (Bool.and_eq_true _ _ |>.mp hc).1
    · rw [wait_for_ssh, if_neg hc]
  · intro hc
    rw [wait_for_ssh, if_pos hc]
  · intro hc
    rw [wait_for_ssh, if_neg (by simp [hc])]
    exact ⟨rfl, rfl⟩

/-- Witness for the amended C4 at a never-pinged STARTING machine probed
strictly. -/
theorem wait_for_ssh_state_amended_witness :
    (wait_for_ssh mProbe true).sshPinged = true ∧
    (wait_for_ssh mProbe true).state = MachineSt.up :=
  ⟨(wait_for_ssh_state_amended mProbe true).1,
   ((wait_for_ssh_state_amended mProbe true).2.2 (by decide)).1⟩

/-! Claim C3. -/

/-- C3 counterexample: for a spec with a destDir but no content source,
send_keys raises only after having issued the remote
destination-directory-creation command, refuting the claim that the error
is raised before any remote command for that secret. -/
theorem send_keys_missing_source_cex :
    (sendKeysKey env0 "/tmp-dir/key-m" "k" optsNoSource).2.isSome = true ∧
    Event.remote (RemoteCmd.ensureDestDir "/run/keys") ∈
      (sendKeysKey env0 "/tmp-dir/key-m" "k" optsNoSource).1 := by decide

/-- C3 amended: a missing destDir raises before any remote command (the
event trace is empty); a missing source (none of text, keyCmd, keyFile set)
raises after exactly the destination-directory ensure command, but before
any upload, ownership, permission or rename step. -/
theorem send_keys_config_error_order_amended (env : Env) (tmpPath name : String)
    (opts : KeyOptions) :
    (opts.destDir = none →
      sendKeysKey env tmpPath name opts =
        ([], some ("Key has no destDir specified: " ++ name))) ∧
    (∀ d, opts.destDir = some d →
      opts.text = none → opts.keyCmd = none → opts.keyFile = none →
      sendKeysKey env tmpPath name opts =
        ([Event.remote (RemoteCmd.ensureDestDir (rstripSlashes d))],
         some ("Neither text or keyFile options were set for key " ++ name))) := by
  constructor
  · intro h
    simp [sendKeysKey, h]
  · intro d hd ht hc hf
    simp [sendKeysKey, materialize, hd, ht, hc, hf]

/-- Witness for the amended C3 at concrete malformed specs. -/
theorem send_keys_config_error_order_amended_witness :
    sendKeysKey env0 "/tmp-dir/key-m" "k" optsNoDest =
      ([], some "Key has no destDir specified: k") ∧
    sendKeysKey env0 "/tmp-dir/key-m" "k" optsNoSource =
      ([Event.remote (RemoteCmd.ensureDestDir "/run/keys")],
       some "Neither text or keyFile options were set for key k") :=
  ⟨(send_keys_config_error_order_amended env0 "/tmp-dir/key-m" "k" optsNoDest).1 rfl,
   (send_keys_config_error_order_amended env0 "/tmp-dir/key-m" "k" optsNoSource).2
     "/run/keys" rfl rfl rfl rfl⟩

/-! Claim C5, counterexample part. -/

/-- C5 counterexample: a spec whose user field is absent does not provision
with ownership left unmodified; instead send_keys stops with a Python
KeyError when building the chown/chmod command (after the upload), so
neither the permission step nor the rename ever runs. -/
theorem send_keys_missing_user_cex :
    sendKeysKey env0 "/tmp-dir/key-m" "k" optsNoUser =
      ([Event.remote (RemoteCmd.ensureDestDir "/dir"),
        Event.localWrite "/tmp-dir/key-m" "s",
        Event.remote (RemoteCmd.removeFiles "/dir/k" "/dir/.k.tmp"),
        Event.upload "/tmp-dir/key-m" "/dir/.k.tmp" "s"],
       some "KeyError: user") := by decide

/-! Claim C8. -/

/-- C8 (code bug exhibit): for a command-sourced spec the source spawns the
command with subprocess.Popen and never waits for it, so at upload time the
scratch file holds only what the command happens to have written; with a
command that has written nothing yet, the uploaded content is empty while
the command's complete standard output is nonempty.  The claim that the
scratch file contains the complete output before upload matches the spec's
clear intent and is violated by the code. -/
theorem send_keys_keycmd_race_bug :
    sendKeysKey env0 "/tmp-dir/key-m" "k" optsCmd =
      ([Event.remote (RemoteCmd.ensureDestDir "/d"),
        Event.localSpawn "/tmp-dir/key-m" "echo secret",
        Event.remote (RemoteCmd.removeFiles "/d/k" "/d/.k.tmp"),
        Event.upload "/tmp-dir/key-m" "/d/.k.tmp" "",
        Event.remote (RemoteCmd.chownChmod "/d/.k.tmp" "root" "root" "0600"),
        Event.remote (RemoteCmd.moveFile "/d/.k.tmp" "/d/k"),
        Event.localRemoveFile "/tmp-dir/key-m"], none) ∧
    env0.cmdOutput "echo secret" = "secret\n" ∧
    ("" : String) ≠ "secret\n" := by decide

/-! Claim C10. -/

/-- C10 counterexample: a machine past both guards whose single secret spec
lacks destDir makes send_keys raise before the final command, so the trace
does not end with the /run/keys creation and readiness-marker touch,
refuting the claim that send_keys always ends with it. -/
theorem send_keys_readiness_marker_cex :
    mBad.state ≠ MachineSt.rescue ∧
    mBad.storeKeysOnMachine = false ∧
    (send_keys env0 mBad).2.1.getLast? ≠
      some (Event.remote (RemoteCmd.ensureRunKeys "/run/keys" "0750" "keys" "/run/keys/done")) := by
  decide

/-- C10 amended: whenever send_keys runs past its no-op guards and no
secret spec raises, its trace ends with the command creating /run/keys with
mode 0750 and group keys and touching /run/keys/done; in particular this
holds for an empty keys mapping. -/
theorem send_keys_readiness_marker_amended (env : Env) (m : MachineRecord)
    (h1 : m.state ≠ MachineSt.rescue) (h2 : m.storeKeysOnMachine = false)
    (h3 : (send_keys env m).2.2 = none) :
    (send_keys env m).2.1.getLast? =
      some (Event.remote (RemoteCmd.ensureRunKeys "/run/keys" "0750" "keys" "/run/keys/done")) := by
  unfold send_keys at h3 ⊢
  rw [if_neg h1] at h3 ⊢
  rw [if_neg (by simp [h2])] at h3 ⊢
  cases hp : processKeys env (env.tempdir ++ "/key-" ++ m.name) m.keys with
  | mk evs err =>
    rw [hp] at h3
    cases err with
    | some e => exact Option.noConfusion h3
    | none => exact List.getLast?_concat _

/-- Witness for the amended C10: an empty-keys machine still gets the
readiness marker. -/
theorem send_keys_readiness_marker_amended_witness :
    (send_keys env0 mEmpty).2.1.getLast? =
      some (Event.remote (RemoteCmd.ensureRunKeys "/run/keys" "0750" "keys" "/run/keys/done")) :=
  send_keys_readiness_marker_amended env0 mEmpty (by decide) (by decide) (by decide)

/-- Shape of a successful key iteration: the exact seven-event trace. -/
theorem sendKeysKey_success_events (env : Env) (tmpPath name : String) (opts : KeyOptions)
    (d u g pm : String) (e : Event) (c : String)
    (hd : opts.destDir = some d) (hm : materialize env tmpPath opts = some (e, c))
    (hu : opts.user = some u) (hg : opts.group = some g) (hp : opts.permissions = some pm) :
    sendKeysKey env tmpPath name opts =
      ([Event.remote (RemoteCmd.ensureDestDir (rstripSlashes d)), e,
        Event.remote (RemoteCmd.removeFiles (keyOutfile d name) (keyTmpfile d name)),
        Event.upload tmpPath (keyTmpfile d name) c,
        Event.remote (RemoteCmd.chownChmod (keyTmpfile d name) u g pm),
        Event.remote (RemoteCmd.moveFile (keyTmpfile d name) (keyOutfile d name)),
        Event.localRemoveFile tmpPath], none) := by
  simp [sendKeysKey, hd, hm, hu, hg, hp, keyOutfile, keyTmpfile]

/-- Evaluation of a successful key trace on an arbitrary remote
filesystem: the destination file ends with the uploaded content, an owner
set by the conditional chown, and the declared mode; the temporary path
ends deleted; all other paths are untouched. -/
theorem applyEvents_keyEvents (env : Env) (tmpPath name : String) (opts : KeyOptions)
    (d u g pm : String) (e : Event) (c : String)
    (hd : opts.destDir = some d) (hm : materialize env tmpPath opts = some (e, c))
    (hu : opts.user = some u) (hg : opts.group = some g) (hp : opts.permissions = some pm)
    (fs : String → Option FileData) (q : String) :
    applyEvents env fs (keyEvents env tmpPath name opts) q =
      if q = keyOutfile d name then
        some { content := c,
               owner := if env.userExists u && env.groupExists g then (u, g)
                        else ("root", "root"),
               mode := pm }
      else if q = keyTmpfile d name then none
      else fs q := by
  have hev := sendKeysKey_success_events env tmpPath name opts d u g pm e c hd hm hu hg hp
  have hloc := (materialize_eventLocal env tmpPath opts e c hm).2
  have hne : keyTmpfile d name ≠ keyOutfile d name := keyTmpfile_ne_keyOutfile d name
  simp only [keyEvents, hev, applyEvents, List.foldl]
  rw [hloc env]
  by_cases hO : q = keyOutfile d name
  · simp [applyEvent, hO, hne]
  · by_cases hT : q = keyTmpfile d name
    · simp [applyEvent, hO, hT, hne]
    · simp [applyEvent, hO, hT, hne]

/-- Every prefix of a successful key trace leaves the destination path in
one of exactly three states: the initial (old) state, absent, or the final
(new) file. -/
theorem keyTrace_prefix_states (env : Env) (fs : String → Option FileData)
    (dd O T tmpPath : String) (e : Event) (u g pm c : String)
    (hne : T ≠ O) (hloc : ∀ fs2, applyEvent env fs2 e = fs2) (n : Nat) :
    applyEvents env fs (([Event.remote (RemoteCmd.ensureDestDir dd), e,
        Event.remote (RemoteCmd.removeFiles O T),
        Event.upload tmpPath T c,
        Event.remote (RemoteCmd.chownChmod T u g pm),
        Event.remote (RemoteCmd.moveFile T O),
        Event.localRemoveFile tmpPath]).take n) O = fs O ∨
    applyEvents env fs (([Event.remote (RemoteCmd.ensureDestDir dd), e,
        Event.remote (RemoteCmd.removeFiles O T),
        Event.upload tmpPath T c,
        Event.remote (RemoteCmd.chownChmod T u g pm),
        Event.remote (RemoteCmd.moveFile T O),
        Event.localRemoveFile tmpPath]).take n) O = none ∨
    applyEvents env fs (([Event.remote (RemoteCmd.ensureDestDir dd), e,
        Event.remote (RemoteCmd.removeFiles O T),
        Event.upload tmpPath T c,
        Event.remote (RemoteCmd.chownChmod T u g pm),
        Event.remote (RemoteCmd.moveFile T O),
        Event.localRemoveFile tmpPath]).take n) O =
      some { content := c,
             owner := if env.userExists u && env.groupExists g then (u, g)
                      else ("root", "root"),
             mode := pm } := by
  have hOO : O ≠ T := Ne.symm hne
  match n with
  | 0 => left; rfl
  | 1 => left; rfl
  | 2 =>
    left
    show applyEvent env (applyEvent env fs (Event.remote (RemoteCmd.ensureDestDir dd))) e O = fs O
    rw [hloc]
    rfl
  | 3 =>
    right; left
    simp only [applyEvents, List.take, List.foldl]
    rw [hloc]
    simp [applyEvent]
  | 4 =>
    right; left
    simp only [applyEvents, List.take, List.foldl]
    rw [hloc]
    simp [applyEvent, hOO]
  | 5 =>
    right; left
    simp only [applyEvents, List.take, List.foldl]
    rw [hloc]
    simp [applyEvent, hOO]
  | 6 =>
    right; right
    simp only [applyEvents, List.take, List.foldl]
    rw [hloc]
    simp [applyEvent, hOO]
  | (k + 7) =>
    right; right
    rw [List.take_of_length_le (by simp)]
    simp only [applyEvents, List.foldl]
    rw [hloc]
    simp [applyEvent, hOO]

/-- C2 counterexample: starting from a filesystem holding the old complete
secret at the destination, after the rm -f step of a re-provision (trace
prefix of length 3) the destination path is absent, while the claim states
a concurrent reader always observes the old or the new complete content and
never an absent file.  The initial and final states are also shown. -/
theorem send_keys_reprovision_cex :
    fs0 "/run/keys/k" = some { content := "old", owner := ("root", "root"), mode := "0600" } ∧
    applyEvents env0 fs0 ((keyEvents env0 "/tmp-dir/key-m" "k" opts3).take 3) "/run/keys/k" =
      none ∧
    applyEvents env0 fs0 (keyEvents env0 "/tmp-dir/key-m" "k" opts3) "/run/keys/k" =
      some { content := "newsecret", owner := ("root", "root"), mode := "0600" } := by decide

/-- C2 amended: re-running a key provisioning with an unchanged spec and
environment is idempotent on the whole remote filesystem (content, owner
and mode of the destination included), and during a re-provision a reader
of the destination path observes the old complete content, no file at all
(after the stale file is removed), or the new complete content - never a
truncated file. -/
theorem send_keys_reprovision_amended (env : Env) (tmpPath name : String) (opts : KeyOptions)
    (d u g pm : String) (e : Event) (c : String)
    (hd : opts.destDir = some d) (hm : materialize env tmpPath opts = some (e, c))
    (hu : opts.user = some u) (hg : opts.group = some g) (hp : opts.permissions = some pm)
    (fs : String → Option FileData) :
    (∀ q, applyEvents env (applyEvents env fs (keyEvents env tmpPath name opts))
        (keyEvents env tmpPath name opts) q =
      applyEvents env fs (keyEvents env tmpPath name opts) q) ∧
    (∀ n, applyEvents env fs ((keyEvents env tmpPath name opts).take n) (keyOutfile d name) =
            fs (keyOutfile d name) ∨
          applyEvents env fs ((keyEvents env tmpPath name opts).take n) (keyOutfile d name) =
            none ∨
          applyEvents env fs ((keyEvents env tmpPath name opts).take n) (keyOutfile d name) =
            applyEvents env fs (keyEvents env tmpPath name opts) (keyOutfile d name)) := by
  have hev := sendKeysKey_success_events env tmpPath name opts d u g pm e c hd hm hu hg hp
  have hloc := (materialize_eventLocal env tmpPath opts e c hm).2 env
  have hfull : applyEvents env fs (keyEvents env tmpPath name opts) (keyOutfile d name) =
      some { content := c,
             owner := if env.userExists u && env.groupExists g then (u, g)
                      else ("root", "root"),
             mode := pm } := by
    rw [applyEvents_keyEvents env tmpPath name opts d u g pm e c hd hm hu hg hp fs]
    simp
  have hkl : keyEvents env tmpPath name opts =
      [Event.remote (RemoteCmd.ensureDestDir (rstripSlashes d)), e,
       Event.remote (RemoteCmd.removeFiles (keyOutfile d name) (keyTmpfile d name)),
       Event.upload tmpPath (keyTmpfile d name) c,
       Event.remote (RemoteCmd.chownChmod (keyTmpfile d name) u g pm),
       Event.remote (RemoteCmd.moveFile (keyTmpfile d name) (keyOutfile d name)),
       Event.localRemoveFile tmpPath] := by
    show (sendKeysKey env tmpPath name opts).1 = _
    rw [hev]
  constructor
  · intro q
    rw [applyEvents_keyEvents env tmpPath name opts d u g pm e c hd hm hu hg hp
          (applyEvents env fs (keyEvents env tmpPath name opts)) q,
        applyEvents_keyEvents env tmpPath name opts d u g pm e c hd hm hu hg hp fs q]
    by_cases hO : q = keyOutfile d name
    · simp [hO]
    · by_cases hT : q = keyTmpfile d name <;> simp [hO, hT]
  · intro n
    have hfullE : applyEvents env fs
        [Event.remote (RemoteCmd.ensureDestDir (rstripSlashes d)), e,
         Event.remote (RemoteCmd.removeFiles (keyOutfile d name) (keyTmpfile d name)),
         Event.upload tmpPath (keyTmpfile d name) c,
         Event.remote (RemoteCmd.chownChmod (keyTmpfile d name) u g pm),
         Event.remote (RemoteCmd.moveFile (keyTmpfile d name) (keyOutfile d name)),
         Event.localRemoveFile tmpPath] (keyOutfile d name) =
        some { content := c,
               owner := if env.userExists u && env.groupExists g then (u, g)
                        else ("root", "root"),
               mode := pm } := by
      rw [← hkl]
      exact hfull
    rw [hkl]
    rcases keyTrace_prefix_states env fs (rstripSlashes d) (keyOutfile d name)
        (keyTmpfile d name) tmpPath e u g pm c (keyTmpfile_ne_keyOutfile d name) hloc n with
      h | h | h
    · left; exact h
    · right; left; exact h
    · right; right
      rw [hfullE]
      exact h

/-- C5 amended: a spec with an absent user field makes send_keys raise
KeyError rather than provision; ownership is left as uploaded (root:root)
with the declared permissions still applied only in the case where the
named user or group does not resolve on the remote machine. -/
theorem send_keys_ownership_amended :
    (∀ (env : Env) (tmpPath name : String) (opts : KeyOptions) (d : String) (e : Event)
        (c : String),
      opts.destDir = some d → materialize env tmpPath opts = some (e, c) → opts.user = none →
      (sendKeysKey env tmpPath name opts).2 = some "KeyError: user") ∧
    (∀ (env : Env) (tmpPath name : String) (opts : KeyOptions) (d u g pm : String) (e : Event)
        (c : String) (fs : String → Option FileData),
      opts.destDir = some d → materialize env tmpPath opts = some (e, c) →
      opts.user = some u → opts.group = some g → opts.permissions = some pm →
      (env.userExists u && env.groupExists g) = false →
      applyEvents env fs (keyEvents env tmpPath name opts) (keyOutfile d name) =
        some { content := c, owner := ("root", "root"), mode := pm }) := by
  constructor
  · intro env tmpPath name opts d e c hd hm hu
    simp [sendKeysKey, hd, hm, hu]
  · intro env tmpPath name opts d u g pm e c fs hd hm hu hg hp hfalse
    rw [applyEvents_keyEvents env tmpPath name opts d u g pm e c hd hm hu hg hp fs]
    simp [hfalse]

/-- None of the events of an aborted key iteration (the four-event error
trace) creates the final destination path. -/
theorem keyTrace4_no_create (dd O T tmpPath c : String) (e : Event)
    (hne : T ≠ O) (hl : ∀ p, ¬ createsPath e p) :
    ∀ ev ∈ [Event.remote (RemoteCmd.ensureDestDir dd), e,
            Event.remote (RemoteCmd.removeFiles O T), Event.upload tmpPath T c],
      ¬ createsPath ev O := by
  intro ev hev
  simp only [List.mem_cons, List.not_mem_nil, or_false] at hev
  rcases hev with rfl | rfl | rfl | rfl
  · intro hcp; exact hcp
  · exact hl O
  · intro hcp; exact hcp
  · intro hcp; exact hne hcp

/-- C1: within the processing of one secret spec, the only event that
creates the final destination path is the rename (mv) from the
same-directory temporary file, and that rename is immediately preceded by
the chown/chmod of the temporary file; no step uploads or writes secret
content directly to the final path. -/
theorem send_keys_final_path_atomic (env : Env) (tmpPath name : String) (opts : KeyOptions)
    (d : String) (hd : opts.destDir = some d) :
    (∀ ev ∈ keyEvents env tmpPath name opts, createsPath ev (keyOutfile d name) →
        ev = Event.remote (RemoteCmd.moveFile (keyTmpfile d name) (keyOutfile d name))) ∧
    (Event.remote (RemoteCmd.moveFile (keyTmpfile d name) (keyOutfile d name)) ∈
        keyEvents env tmpPath name opts →
      ∃ u g pm pre suf, opts.user = some u ∧ opts.group = some g ∧
        opts.permissions = some pm ∧
        keyEvents env tmpPath name opts =
          pre ++ [Event.remote (RemoteCmd.chownChmod (keyTmpfile d name) u g pm),
                  Event.remote (RemoteCmd.moveFile (keyTmpfile d name) (keyOutfile d name))]
              ++ suf) := by
  have hne : keyTmpfile d name ≠ keyOutfile d name := keyTmpfile_ne_keyOutfile d name
  cases hm : materialize env tmpPath opts with
  | none =>
    have hkl : keyEvents env tmpPath name opts =
        [Event.remote (RemoteCmd.ensureDestDir (rstripSlashes d))] := by
      show (sendKeysKey env tmpPath name opts).1 = _
      simp [sendKeysKey, hd, hm]
    rw [hkl]
    constructor
    · intro ev hev hcp
      simp only [List.mem_cons, List.not_mem_nil, or_false] at hev
      subst hev
      exact hcp.elim
    · intro hmem
      simp at hmem
  | some p =>
    obtain ⟨e, c⟩ := p
    have hl := (materialize_eventLocal env tmpPath opts e c hm).1
    cases hu : opts.user with
    | none =>
      have hkl : keyEvents env tmpPath name opts =
          [Event.remote (RemoteCmd.ensureDestDir (rstripSlashes d)), e,
           Event.remote (RemoteCmd.removeFiles (keyOutfile d name) (keyTmpfile d name)),
           Event.upload tmpPath (keyTmpfile d name) c] := by
        show (sendKeysKey env tmpPath name opts).1 = _
        simp [sendKeysKey, hd, hm, hu, keyOutfile, keyTmpfile]
      rw [hkl]
      refine ⟨fun ev hev hcp => absurd hcp (keyTrace4_no_create (rstripSlashes d)
        (keyOutfile d name) (keyTmpfile d name) tmpPath c e hne hl ev hev), fun hmem => ?_⟩
      exact absurd (show createsPath
          (Event.remote (RemoteCmd.moveFile (keyTmpfile d name) (keyOutfile d name)))
          (keyOutfile d name) from rfl)
        (keyTrace4_no_create (rstripSlashes d) (keyOutfile d name) (keyTmpfile d name)
          tmpPath c e hne hl _ hmem)
    | some u =>
      cases hg : opts.group with
      | none =>
        have hkl : keyEvents env tmpPath name opts =
            [Event.remote (RemoteCmd.ensureDestDir (rstripSlashes d)), e,
             Event.remote (RemoteCmd.removeFiles (keyOutfile d name) (keyTmpfile d name)),
             Event.upload tmpPath (keyTmpfile d name) c] := by
          show (sendKeysKey env tmpPath name opts).1 = _
          simp [sendKeysKey, hd, hm, hu, hg, keyOutfile, keyTmpfile]
        rw [hkl]
        refine ⟨fun ev hev hcp => absurd hcp (keyTrace4_no_create (rstripSlashes d)
          (keyOutfile d name) (keyTmpfile d name) tmpPath c e hne hl ev hev), fun hmem => ?_⟩
        exact absurd (show createsPath
            (Event.remote (RemoteCmd.moveFile (keyTmpfile d name) (keyOutfile d name)))
            (keyOutfile d name) from rfl)
          (keyTrace4_no_create (rstripSlashes d) (keyOutfile d name) (keyTmpfile d name)
            tmpPath c e hne hl _ hmem)
      | some g =>
        cases hp : opts.permissions with
        | none =>
          have hkl : keyEvents env tmpPath name opts =
              [Event.remote (RemoteCmd.ensureDestDir (rstripSlashes d)), e,
               Event.remote (RemoteCmd.removeFiles (keyOutfile d name) (keyTmpfile d name)),
               Event.upload tmpPath (keyTmpfile d name) c] := by
            show (sendKeysKey env tmpPath name opts).1 = _
            simp [sendKeysKey, hd, hm, hu, hg, hp, keyOutfile, keyTmpfile]
          rw [hkl]
          refine ⟨fun ev hev hcp => absurd hcp (keyTrace4_no_create (rstripSlashes d)
            (keyOutfile d name) (keyTmpfile d name) tmpPath c e hne hl ev hev), fun hmem => ?_⟩
          exact absurd (show createsPath
              (Event.remote (RemoteCmd.moveFile (keyTmpfile d name) (keyOutfile d name)))
              (keyOutfile d name) from rfl)
            (keyTrace4_no_create (rstripSlashes d) (keyOutfile d name) (keyTmpfile d name)
              tmpPath c e hne hl _ hmem)
        | some pm =>
          have hkl : keyEvents env tmpPath name opts =
              [Event.remote (RemoteCmd.ensureDestDir (rstripSlashes d)), e,
               Event.remote (RemoteCmd.removeFiles (keyOutfile d name) (keyTmpfile d name)),
               Event.upload tmpPath (keyTmpfile d name) c,
               Event.remote (RemoteCmd.chownChmod (keyTmpfile d name) u g pm),
               Event.remote (RemoteCmd.moveFile (keyTmpfile d name) (keyOutfile d name)),
               Event.localRemoveFile tmpPath] := by
            show (sendKeysKey env tmpPath name opts).1 = _
            rw [sendKeysKey_success_events env tmpPath name opts d u g pm e c hd hm hu hg hp]
          rw [hkl]
          constructor
          · intro ev hev hcp
            simp only [List.mem_cons, List.not_mem_nil, or_false] at hev
            rcases hev with rfl | rfl | rfl | rfl | rfl | rfl | rfl
            · exact hcp.elim
            · exact absurd hcp (hl _)
            · exact hcp.elim
            · exact absurd hcp hne
            · exact hcp.elim
            · rfl
            · exact hcp.elim
          · intro hmem
            refine ⟨u, g, pm,
              [Event.remote (RemoteCmd.ensureDestDir (rstripSlashes d)), e,
               Event.remote (RemoteCmd.removeFiles (keyOutfile d name) (keyTmpfile d name)),
               Event.upload tmpPath (keyTmpfile d name) c],
              [Event.localRemoveFile tmpPath], rfl, rfl, rfl, rfl⟩

/-- Witness for C1 at a concrete inline-text spec: the rename that creates
the final path is present in the trace, and the claim theorem applies to
it. -/
theorem send_keys_final_path_atomic_witness :
    (Event.remote (RemoteCmd.moveFile (keyTmpfile "/run/keys" "k") (keyOutfile "/run/keys" "k")) ∈
      keyEvents env0 "/tmp-dir/key-m" "k" opts3) ∧
    Event.remote (RemoteCmd.moveFile (keyTmpfile "/run/keys" "k") (keyOutfile "/run/keys" "k")) =
      Event.remote (RemoteCmd.moveFile (keyTmpfile "/run/keys" "k") (keyOutfile "/run/keys" "k")) :=
  ⟨by decide,
   (send_keys_final_path_atomic env0 "/tmp-dir/key-m" "k" opts3 "/run/keys" rfl).1
     (Event.remote (RemoteCmd.moveFile (keyTmpfile "/run/keys" "k") (keyOutfile "/run/keys" "k")))
     (by decide) rfl⟩

/-- Witness for the amended C2 at a concrete spec, filesystem and prefix
length. -/
theorem send_keys_reprovision_amended_witness :
    (applyEvents env0 (applyEvents env0 fs0 (keyEvents env0 "/tmp-dir/key-m" "k" opts3))
        (keyEvents env0 "/tmp-dir/key-m" "k" opts3) "/run/keys/k" =
      applyEvents env0 fs0 (keyEvents env0 "/tmp-dir/key-m" "k" opts3) "/run/keys/k") ∧
    (applyEvents env0 fs0 ((keyEvents env0 "/tmp-dir/key-m" "k" opts3).take 3)
        (keyOutfile "/run/keys" "k") = fs0 (keyOutfile "/run/keys" "k") ∨
     applyEvents env0 fs0 ((keyEvents env0 "/tmp-dir/key-m" "k" opts3).take 3)
        (keyOutfile "/run/keys" "k") = none ∨
     applyEvents env0 fs0 ((keyEvents env0 "/tmp-dir/key-m" "k" opts3).take 3)
        (keyOutfile "/run/keys" "k") =
       applyEvents env0 fs0 (keyEvents env0 "/tmp-dir/key-m" "k" opts3)
         (keyOutfile "/run/keys" "k")) :=
  ⟨(send_keys_reprovision_amended env0 "/tmp-dir/key-m" "k" opts3 "/run/keys" "root" "root"
      "0600" (Event.localWrite "/tmp-dir/key-m" "newsecret") "newsecret" rfl rfl rfl rfl rfl
      fs0).1 "/run/keys/k",
   (send_keys_reprovision_amended env0 "/tmp-dir/key-m" "k" opts3 "/run/keys" "root" "root"
      "0600" (Event.localWrite "/tmp-dir/key-m" "newsecret") "newsecret" rfl rfl rfl rfl rfl
      fs0).2 3⟩

/-- Witness for the amended C5: the KeyError branch at a concrete userless
spec, and the ownership-untouched branch at a concrete machine where getent
does not resolve the user. -/
theorem send_keys_ownership_amended_witness :
    (sendKeysKey env0 "/tmp-dir/key-m" "k" optsNoUser).2 = some "KeyError: user" ∧
    applyEvents envNoRes fs0 (keyEvents envNoRes "/tmp-dir/key-m" "k" opts3)
        (keyOutfile "/run/keys" "k") =
      some { content := "newsecret", owner := ("root", "root"), mode := "0600" } :=
  ⟨send_keys_ownership_amended.1 env0 "/tmp-dir/key-m" "k" optsNoUser "/dir"
     (Event.localWrite "/tmp-dir/key-m" "s") "s" rfl rfl rfl,
   send_keys_ownership_amended.2 envNoRes "/tmp-dir/key-m" "k" opts3 "/run/keys" "root" "root"
     "0600" (Event.localWrite "/tmp-dir/key-m" "newsecret") "newsecret" fs0 rfl rfl rfl rfl rfl
     rfl⟩

theorem stepFailed_failedUnits (l : List Char) (acc : UnitClassification) :
    (stepFailed l acc).failedUnits = acc.failedUnits ++ failedFromLine1 l := by
  unfold stepFailed failedFromLine1 addFailed
  cases reWordMatch "failed".data l <;> simp

theorem stepFailed_inProgressUnits (l : List Char) (acc : UnitClassification) :
    (stepFailed l acc).inProgressUnits = acc.inProgressUnits := by
  unfold stepFailed addFailed
  cases reWordMatch "failed".data l <;> simp

theorem stepActivating_failedUnits (l : List Char) (acc : UnitClassification) :
    (stepActivating l acc).failedUnits = acc.failedUnits := by
  unfold stepActivating addInProgress
  cases reWordMatch "activating".data l <;> simp

theorem stepActivating_inProgressUnits (l : List Char) (acc : UnitClassification) :
    (stepActivating l acc).inProgressUnits = acc.inProgressUnits ++ inProgFromLine l := by
  unfold stepActivating inProgFromLine addInProgress
  cases reWordMatch "activating".data l <;> simp

theorem stepMount_failedUnits (l : List Char) (acc : UnitClassification) :
    (stepMount l acc).failedUnits = acc.failedUnits ++ failedFromMount l := by
  cases hM : reMountInactive l with
  | none => simp [stepMount, failedFromMount, hM]
  | some u =>
    simp only [stepMount, failedFromMount, hM]
    split_ifs <;> simp [addFailed]

theorem stepMount_inProgressUnits (l : List Char) (acc : UnitClassification) :
    (stepMount l acc).inProgressUnits = acc.inProgressUnits := by
  cases hM : reMountInactive l with
  | none => simp [stepMount, hM]
  | some u =>
    simp only [stepMount, hM]
    split_ifs <;> simp [addFailed]

theorem stepTmp_failedUnits (probe : ProbeOutcome) (l : List Char) (acc : UnitClassification) :
    (stepTmp probe l acc).failedUnits = acc.failedUnits ++ failedFromTmp probe l := by
  cases hM : reMountInactive l with
  | none => simp [stepTmp, failedFromTmp, hM]
  | some u =>
    simp only [stepTmp, failedFromTmp, hM]
    by_cases ht : (u == "tmp.mount".data) = true
    · by_cases hr : probeRaises probe = true <;> simp [ht, hr, addFailed]
    · simp [ht]

theorem stepTmp_inProgressUnits (probe : ProbeOutcome) (l : List Char) (acc : UnitClassification) :
    (stepTmp probe l acc).inProgressUnits = acc.inProgressUnits := by
  cases hM : reMountInactive l with
  | none => simp [stepTmp, hM]
  | some u =>
    simp only [stepTmp, hM]
    by_cases ht : (u == "tmp.mount".data) = true
    · by_cases hr : probeRaises probe = true <;> simp [ht, hr, addFailed]
    · simp [ht]

theorem classifyLine_failedUnits (probe : ProbeOutcome) (acc : UnitClassification)
    (l : List Char) :
    (classifyLine probe acc l).failedUnits =
      acc.failedUnits ++ (failedFromLine1 l ++ failedFromMount l ++ failedFromTmp probe l) := by
  unfold classifyLine
  rw [stepTmp_failedUnits, stepMount_failedUnits, stepActivating_failedUnits,
    stepFailed_failedUnits]
  simp [List.append_assoc]

theorem classifyLine_inProgressUnits (probe : ProbeOutcome) (acc : UnitClassification)
    (l : List Char) :
    (classifyLine probe acc l).inProgressUnits =
      acc.inProgressUnits ++ inProgFromLine l := by
  unfold classifyLine
  rw [stepTmp_inProgressUnits, stepMount_inProgressUnits, stepActivating_inProgressUnits,
    stepFailed_inProgressUnits]

theorem classifyUnits_failedUnits (probe : ProbeOutcome) (lines : List (List Char)) :
    (classifyUnits probe lines).failedUnits = failedOfLines probe lines := by
  have aux : ∀ (t : List (List Char)) (acc : UnitClassification),
      (t.foldl (classifyLine probe) acc).failedUnits =
        acc.failedUnits ++ failedOfLines probe t := by
    intro t
    induction t with
    | nil => intro acc; simp [failedOfLines]
    | cons l t2 ih =>
      intro acc
      rw [List.foldl_cons, ih, classifyLine_failedUnits]
      simp [failedOfLines]
  unfold classifyUnits
  rw [aux]
  simp

theorem classifyUnits_inProgressUnits (probe : ProbeOutcome) (lines : List (List Char)) :
    (classifyUnits probe lines).inProgressUnits = inProgOfLines lines := by
  have aux : ∀ (t : List (List Char)) (acc : UnitClassification),
      (t.foldl (classifyLine probe) acc).inProgressUnits =
        acc.inProgressUnits ++ inProgOfLines t := by
    intro t
    induction t with
    | nil => intro acc; simp [inProgOfLines]
    | cons l t2 ih =>
      intro acc
      rw [List.foldl_cons, ih, classifyLine_inProgressUnits]
      simp [inProgOfLines]
  unfold classifyUnits
  rw [aux]
  simp

theorem mem_failedOfLines (probe : ProbeOutcome) (lines : List (List Char)) (u : List Char) :
    u ∈ failedOfLines probe lines ↔
      ∃ l ∈ lines, u ∈ failedFromLine1 l ++ failedFromMount l ++ failedFromTmp probe l := by
  induction lines with
  | nil => simp [failedOfLines]
  | cons l t ih =>
    constructor
    · intro h
      rcases List.mem_append.mp h with h1 | h2
      · exact ⟨l, List.mem_cons_self _ _, h1⟩
      · obtain ⟨l2, hl2, hu⟩ := ih.mp h2
        exact ⟨l2, List.mem_cons_of_mem _ hl2, hu⟩
    · rintro ⟨l2, hl2, hu⟩
      rcases List.mem_cons.mp hl2 with rfl | hl2t
      · exact List.mem_append.mpr (Or.inl hu)
      · exact List.mem_append.mpr (Or.inr (ih.mpr ⟨l2, hl2t, hu⟩))

theorem mem_inProgOfLines (lines : List (List Char)) (u : List Char) :
    u ∈ inProgOfLines lines ↔ ∃ l ∈ lines, u ∈ inProgFromLine l := by
  induction lines with
  | nil => simp [inProgOfLines]
  | cons l t ih => simp [inProgOfLines, List.mem_append, ih]

/-- C6: for every line of the unit listing, a line matching the failed
pattern puts its first token into failedUnits; a line matching the
activating pattern puts its token into inProgressUnits; an inactive mount
line puts its unit into failedUnits unless the name starts with sys- or
dev- or equals tmp.mount; and sys-kernel-config.mount is never added to
failedUnits by any rule (given that no line of the listing reports it via
the failed pattern, as no listing showing it inactive does). -/
theorem check_unit_classification (probe : ProbeOutcome) (lines : List (List Char)) :
    (∀ l ∈ lines, ∀ u, reWordMatch "failed".data l = some u →
        u ∈ (classifyUnits probe lines).failedUnits) ∧
    (∀ l ∈ lines, ∀ u, reWordMatch "activating".data l = some u →
        u ∈ (classifyUnits probe lines).inProgressUnits) ∧
    (∀ l ∈ lines, ∀ u, reMountInactive l = some u →
        ("sys-".data.isPrefixOf u || "dev-".data.isPrefixOf u || u == "tmp.mount".data) = false →
        u ∈ (classifyUnits probe lines).failedUnits) ∧
    ((∀ l ∈ lines, reWordMatch "failed".data l ≠ some "sys-kernel-config.mount".data) →
        "sys-kernel-config.mount".data ∉ (classifyUnits probe lines).failedUnits) := by
  refine ⟨?_, ?_, ?_, ?_⟩
  · intro l hl u hm
    rw [classifyUnits_failedUnits, mem_failedOfLines]
    exact ⟨l, hl, by simp [List.mem_append, failedFromLine1, hm]⟩
  · intro l hl u hm
    rw [classifyUnits_inProgressUnits, mem_inProgOfLines]
    exact ⟨l, hl, by simp [inProgFromLine, hm]⟩
  · intro l hl u hm hcond
    rw [classifyUnits_failedUnits, mem_failedOfLines]
    exact ⟨l, hl, by simp [List.mem_append, failedFromMount, hm, hcond]⟩
  · intro hno
    rw [classifyUnits_failedUnits, mem_failedOfLines]
    rintro ⟨l, hl, hmem⟩
    rcases List.mem_append.mp hmem with hmem1 | hmem2
    · rcases List.mem_append.mp hmem1 with hA | hB
      · apply hno l hl
        cases hF : reWordMatch "failed".data l with
        | none => simp only [failedFromLine1, hF] at hA; cases hA
        | some u0 =>
          simp only [failedFromLine1, hF, List.mem_singleton] at hA
          exact congrArg some hA.symm
      · cases hM : reMountInactive l with
        | none => simp only [failedFromMount, hM] at hB; cases hB
        | some u0 =>
          simp only [failedFromMount, hM] at hB
          by_cases hc : ("sys-".data.isPrefixOf u0 || "dev-".data.isPrefixOf u0 ||
              u0 == "tmp.mount".data) = true
          · rw [if_pos hc] at hB; cases hB
          · rw [if_neg hc] at hB
            simp only [List.mem_singleton] at hB
            have hsys : "sys-".data.isPrefixOf "sys-kernel-config.mount".data = true := by
              decide
            rw [← hB] at hc
            exact hc (by simp [hsys])
    · cases hM : reMountInactive l with
      | none => simp only [failedFromTmp, hM] at hmem2; cases hmem2
      | some u0 =>
        simp only [failedFromTmp, hM] at hmem2
        by_cases ht : (u0 == "tmp.mount".data) = true
        · rw [if_pos ht] at hmem2
          by_cases hr : probeRaises probe = true
          · rw [if_pos hr] at hmem2; cases hmem2
          · rw [if_neg hr] at hmem2
            simp only [List.mem_singleton] at hmem2
            rw [← hmem2] at ht
            exact absurd ht (by decide)
        · rw [if_neg ht] at hmem2; cases hmem2

/-- Witness for C6 on a concrete four-line listing exercising every rule. -/
theorem check_unit_classification_witness :
    "foo.service".data ∈ (classifyUnits ProbeOutcome.confirmed lines0).failedUnits ∧
    "bar.service".data ∈ (classifyUnits ProbeOutcome.confirmed lines0).inProgressUnits ∧
    "bar.mount".data ∈ (classifyUnits ProbeOutcome.confirmed lines0).failedUnits ∧
    "sys-kernel-config.mount".data ∉ (classifyUnits ProbeOutcome.confirmed lines0).failedUnits :=
  ⟨(check_unit_classification ProbeOutcome.confirmed lines0).1
     "foo.service loaded failed failed Foo Daemon".data (by decide)
     "foo.service".data (by decide),
   (check_unit_classification ProbeOutcome.confirmed lines0).2.1
     "bar.service loaded activating start Bar Daemon".data (by decide)
     "bar.service".data (by decide),
   (check_unit_classification ProbeOutcome.confirmed lines0).2.2.1
     "bar.mount loaded inactive dead Bar Mount".data (by decide)
     "bar.mount".data (by decide) (by decide),
   (check_unit_classification ProbeOutcome.confirmed lines0).2.2.2 (by decide)⟩

/-- C7: an inactive tmp.mount line is added to failedUnits exactly when
the secondary /etc/fstab probe confirms a /tmp entry (the command
succeeds); when the probe finds no entry or the transport itself fails, the
raised exception is swallowed by the bare except and the unit is excluded. -/
theorem check_tmp_mount_probe (probe : ProbeOutcome) (l : List Char)
    (hm : reMountInactive l = some "tmp.mount".data)
    (hf : reWordMatch "failed".data l = none) :
    ("tmp.mount".data ∈ (classifyUnits probe [l]).failedUnits ↔
      probe = ProbeOutcome.confirmed) := by
  rw [classifyUnits_failedUnits]
  have h1 : ("sys-".data.isPrefixOf "tmp.mount".data ||
      "dev-".data.isPrefixOf "tmp.mount".data ||
      "tmp.mount".data == "tmp.mount".data) = true := by decide
  have h2 : ("tmp.mount".data == "tmp.mount".data) = true := by decide
  simp only [failedOfLines, failedFromLine1, failedFromMount, failedFromTmp, hm, hf, h1, h2,
    if_true, List.append_nil, List.nil_append]
  cases probe <;> simp [probeRaises]

/-- Witness for C7 at a concrete inactive tmp.mount line with a failing
probe transport. -/
theorem check_tmp_mount_probe_witness :
    ("tmp.mount".data ∈ (classifyUnits ProbeOutcome.transportFailure [lTmp]).failedUnits ↔
      ProbeOutcome.transportFailure = ProbeOutcome.confirmed) :=
  check_tmp_mount_probe ProbeOutcome.transportFailure lTmp (by decide) (by decide)

end Nixops
